import Mathlib

/-!
Verification development for the Smart Trolley cart engine (src/main.py).

Money values are modelled as rationals; `round2` models Python's
`round(x, 2)`. Python strings' `.strip().upper()` are modelled
characterwise on the underlying character list (`pyStrip`, `pyUpper`).
Quantities are naturals.
-/

/-- Models Python `round(x, 2)`: round to two decimal places. -/
def round2 (q : ℚ) : ℚ := (round (q * 100) : ℤ) / 100

/-- A catalog value, from `product_database[bc] = {'name': ..., 'price': ...}`. -/
structure Product where
  name : String
  price : ℚ
deriving Repr, DecidableEq

/-- One cart line item, from the dict built in `process_barcode`. -/
structure Item where
  name : String
  price : ℚ
  barcode : String
  quantity : ℕ
  total : ℚ
deriving Repr, DecidableEq

/-- The shared cart state: `scanned_products` and `total_amount`. -/
structure Cart where
  items : List Item
  total : ℚ
deriving Repr, DecidableEq

/-- `total_amount = round(sum(item['total'] for item in scanned_products), 2)`. -/
def cartTotal (items : List Item) : ℚ := round2 ((items.map Item.total).sum)

/-- The debounce slot `last_scan = {"barcode": ..., "time": ...}`. -/
structure LastScan where
  barcode : String
  time : ℚ
deriving Repr, DecidableEq

/-- The debounce check in `qr_scanner`:
`if last_scan["barcode"] != barcode_lookup or (current_time - last_scan["time"]) > RESCAN_DELAY`,
updating `last_scan` on acceptance. Returns (accepted, new state). -/
def debounceStep (delay : ℚ) (s : LastScan) (id : String) (t : ℚ) : Bool × LastScan :=
  if s.barcode ≠ id ∨ t - s.time > delay then (true, ⟨id, t⟩) else (false, s)

/-- Outcome of `process_barcode`: the known-product path or the
`Product not found` path. -/
inductive Outcome where
  | added
  | notFound
deriving Repr, DecidableEq

/-- The new line item built in `process_barcode` when the barcode is not yet
in the cart: quantity 1, total `round(product['price'], 2)`. -/
def mkItem (id : String) (p : Product) : Item :=
  ⟨p.name, p.price, id, 1, round2 p.price⟩

/-- The in-place update of a matching item:
`item['quantity'] += 1; item['total'] = round(item['quantity'] * item['price'], 2)`. -/
def bumpItem (it : Item) : Item :=
  { it with quantity := it.quantity + 1,
            total := round2 (((it.quantity + 1 : ℕ) : ℚ) * it.price) }

/-- The `for item in scanned_products` loop of `process_barcode`: bump the
first item whose barcode matches, else append a fresh item at the end. -/
def addToItems (id : String) (p : Product) : List Item → List Item
  | [] => [mkItem id p]
  | it :: rest =>
    if it.barcode = id then bumpItem it :: rest
    else it :: addToItems id p rest

/-- A row queued for `save_to_database(barcode, name, price)`. -/
structure PersistRec where
  barcode : String
  name : String
  price : ℚ
deriving Repr, DecidableEq

/-- `process_barcode(barcode_data_upper)`: catalog lookup; on a hit, bump or
append the line item, recompute `total_amount` from scratch, and emit one
persistence write; on a miss, leave everything untouched.
Returns (new cart, outcome, persistence writes attempted). -/
def processBarcode (cat : String → Option Product) (st : Cart) (id : String) :
    Cart × Outcome × List PersistRec :=
  match cat id with
  | some p =>
      let items := addToItems id p st.items
      (⟨items, cartTotal items⟩, Outcome.added, [⟨id, p.name, p.price⟩])
  | none => (st, Outcome.notFound, [])

/-- The whitespace set of Python's `str.strip()`. -/
def isSpaceChar (c : Char) : Bool :=
  c = ' ' ∨ c = '\t' ∨ c = '\n' ∨ c = '\x0d' ∨ c = '\x0b' ∨ c = '\x0c'

/-- Python `str.strip()`: drop leading and trailing whitespace. -/
def pyStrip (s : String) : String :=
  ⟨((s.data.dropWhile isSpaceChar).reverse.dropWhile isSpaceChar).reverse⟩

/-- Python `str.upper()` on the ASCII range: map lowercase letters to the
corresponding uppercase letters, leave everything else alone. -/
def upChar (c : Char) : Char :=
  if 'a' ≤ c ∧ c ≤ 'z' then Char.ofNat (c.toNat - 32) else c

/-- Python `str.upper()` applied characterwise. -/
def pyUpper (s : String) : String := ⟨s.data.map upChar⟩

/-- `bc = barcode.strip().upper()` performed by the route handlers. -/
def normalizeBarcode (b : String) : String := pyUpper (pyStrip b)

/-- `remove_item(barcode)`: filter out every item with the normalized
barcode, then recompute `total_amount`. -/
def removeItem (st : Cart) (b : String) : Cart :=
  let bc := normalizeBarcode b
  let items := st.items.filter (fun it => it.barcode ≠ bc)
  ⟨items, cartTotal items⟩

/-- The loop of `increase_quantity`: bump the first matching item, then break;
no change when no item matches. -/
def incFirst (bc : String) : List Item → List Item
  | [] => []
  | it :: rest =>
    if it.barcode = bc then bumpItem it :: rest
    else it :: incFirst bc rest

/-- `increase_quantity(barcode)`: normalize, bump first match, recompute
`total_amount`. -/
def increaseQuantity (st : Cart) (b : String) : Cart :=
  let items := incFirst (normalizeBarcode b) st.items
  ⟨items, cartTotal items⟩

/-- The decremented form of an item with quantity greater than 1:
`item['quantity'] -= 1; item['total'] = round(item['quantity'] * item['price'], 2)`. -/
def dropOneItem (it : Item) : Item :=
  { it with quantity := it.quantity - 1,
            total := round2 (((it.quantity - 1 : ℕ) : ℚ) * it.price) }

/-- The loop of `decrease_quantity`: on the first matching item, decrement if
its quantity exceeds 1, otherwise remove it (`scanned_products.remove(item)`);
then break. -/
def decFirst (bc : String) : List Item → List Item
  | [] => []
  | it :: rest =>
    if it.barcode = bc then
      if it.quantity > 1 then dropOneItem it :: rest else rest
    else it :: decFirst bc rest

/-- `decrease_quantity(barcode)`: normalize, decrement-or-remove first match,
recompute `total_amount`. -/
def decreaseQuantity (st : Cart) (b : String) : Cart :=
  let items := decFirst (normalizeBarcode b) st.items
  ⟨items, cartTotal items⟩

/-- `clear_cart()`: `scanned_products = []; total_amount = 0.0`. -/
def clearCart : Cart := ⟨[], 0⟩

/-- One `products` table row (`name, price, barcode, quantity`, with the
calendar day of its `timestamp`). Days are abstract naturals. -/
structure Row where
  name : String
  price : ℚ
  barcode : String
  quantity : ℕ
  day : ℕ
deriving Repr, DecidableEq

/-- The WHERE clause `barcode=? AND DATE(timestamp)=DATE('now')`. -/
def rowMatches (b : String) (today : ℕ) (r : Row) : Bool :=
  r.barcode = b ∧ r.day = today

/-- `save_to_database(barcode, name, price)`: if a row for (barcode, today)
exists, `UPDATE ... SET quantity=quantity+1` on every matching row; else
`INSERT ... VALUES (?, ?, ?, 1)` with today's timestamp. -/
def saveToDatabase (db : List Row) (today : ℕ) (b nm : String) (pr : ℚ) :
    List Row :=
  if db.any (rowMatches b today) then
    db.map (fun r => if rowMatches b today r
                     then { r with quantity := r.quantity + 1 } else r)
  else
    db ++ [⟨nm, pr, b, 1, today⟩]

/-- `process_barcode` together with its `save_to_database` call. The cart
mutation and total recomputation happen first; the DB write is attempted
afterwards, and when it raises (`writeOk = false`, storage unavailable) the
exception leaves the database untouched and is swallowed by the caller's
`try/except` — the cart is not rolled back. -/
def processBarcodeLogged (cat : String → Option Product) (st : Cart)
    (id : String) (db : List Row) (today : ℕ) (writeOk : Bool) :
    Cart × List Row :=
  match cat id with
  | some p =>
      let items := addToItems id p st.items
      let st' : Cart := ⟨items, cartTotal items⟩
      let db' := if writeOk then saveToDatabase db today id p.name p.price else db
      (st', db')
  | none => (st, db)

/-- One cart mutation, as named in the spec. -/
inductive Mutation where
  | scan (id : String)
  | increase (b : String)
  | decrease (b : String)
  | remove (b : String)
  | clear
deriving Repr, DecidableEq

/-- Apply one mutation to the cart (`scan` is `process_barcode` on an
already-normalized identifier). -/
def applyMutation (cat : String → Option Product) (st : Cart) :
    Mutation → Cart
  | Mutation.scan id => (processBarcode cat st id).1
  | Mutation.increase b => increaseQuantity st b
  | Mutation.decrease b => decreaseQuantity st b
  | Mutation.remove b => removeItem st b
  | Mutation.clear => clearCart

/-- Run a sequence of mutations from the initial state
(`scanned_products = []`, `total_amount = 0.0`). -/
def runMutations (cat : String → Option Product) (ms : List Mutation) : Cart :=
  ms.foldl (applyMutation cat) ⟨[], 0⟩

/-- One raw catalog entry as read from `products.json`: its key, the `name`
field, and the `price` field after `float(...)` parsing (`none` when the
parse raises and the `except` branch forces 0.0). -/
structure RawEntry where
  barcode : String
  name : String
  price : Option ℚ
deriving Repr, DecidableEq

/-- The per-entry body of `load_products_from_json`: normalize the key,
multiply a parseable price by `CURRENCY_MULTIPLIER` (parse failure gives
0.0 unmultiplied), round to 2 decimals. -/
def loadEntry (mult : ℚ) (e : RawEntry) : String × Product :=
  let pr : ℚ := match e.price with
    | some p => p * mult
    | none => 0
  (normalizeBarcode e.barcode, ⟨e.name, round2 pr⟩)

/-- `load_products_from_json`: skip entries with an empty key, normalize and
price-convert the rest. -/
def loadProducts (mult : ℚ) (entries : List RawEntry) :
    List (String × Product) :=
  (entries.filter (fun e => e.barcode ≠ "")).map (loadEntry mult)

theorem round2_zero : round2 0 = 0 := by
  simp [round2]

theorem round2_nonneg {q : ℚ} (h : 0 ≤ q) : 0 ≤ round2 q := by
  unfold round2
  have h100 : (0 : ℚ) ≤ q * 100 := by positivity
  have : (0 : ℤ) ≤ round (q * 100) := by
    rw [round_eq]
    exact Int.floor_nonneg.mpr (by linarith)
  positivity

theorem addToItems_of_absent (id : String) (p : Product) (l : List Item)
    (h : ∀ it ∈ l, it.barcode ≠ id) : addToItems id p l = l ++ [mkItem id p] := by
  induction l with
  | nil => rfl
  | cons it rest ih =>
      have h1 : it.barcode ≠ id := h it (List.mem_cons_self it rest)
      simp only [addToItems, if_neg h1, List.cons_append, List.cons.injEq, true_and]
      exact ih fun jt hjt => h jt (List.mem_cons_of_mem it hjt)

theorem addToItems_of_first_match (id : String) (p : Product)
    (pre : List Item) (it : Item) (post : List Item)
    (hpre : ∀ jt ∈ pre, jt.barcode ≠ id) (hit : it.barcode = id) :
    addToItems id p (pre ++ it :: post) = pre ++ bumpItem it :: post := by
  induction pre with
  | nil => simp [addToItems, hit]
  | cons jt rest ih =>
      have h1 : jt.barcode ≠ id := hpre jt (List.mem_cons_self jt rest)
      simp only [List.cons_append, addToItems, if_neg h1, List.cons.injEq, true_and]
      exact ih fun kt hkt => hpre kt (List.mem_cons_of_mem jt hkt)

theorem incFirst_of_absent (bc : String) (l : List Item)
    (h : ∀ it ∈ l, it.barcode ≠ bc) : incFirst bc l = l := by
  induction l with
  | nil => rfl
  | cons it rest ih =>
      have h1 : it.barcode ≠ bc := h it (List.mem_cons_self it rest)
      simp only [incFirst, if_neg h1, List.cons.injEq, true_and]
      exact ih fun jt hjt => h jt (List.mem_cons_of_mem it hjt)

theorem incFirst_of_first_match (bc : String)
    (pre : List Item) (it : Item) (post : List Item)
    (hpre : ∀ jt ∈ pre, jt.barcode ≠ bc) (hit : it.barcode = bc) :
    incFirst bc (pre ++ it :: post) = pre ++ bumpItem it :: post := by
  induction pre with
  | nil => simp [incFirst, hit]
  | cons jt rest ih =>
      have h1 : jt.barcode ≠ bc := hpre jt (List.mem_cons_self jt rest)
      simp only [List.cons_append, incFirst, if_neg h1, List.cons.injEq, true_and]
      exact ih fun kt hkt => hpre kt (List.mem_cons_of_mem jt hkt)

theorem decFirst_of_absent (bc : String) (l : List Item)
    (h : ∀ it ∈ l, it.barcode ≠ bc) : decFirst bc l = l := by
  induction l with
  | nil => rfl
  | cons it rest ih =>
      have h1 : it.barcode ≠ bc := h it (List.mem_cons_self it rest)
      simp only [decFirst, if_neg h1, List.cons.injEq, true_and]
      exact ih fun jt hjt => h jt (List.mem_cons_of_mem it hjt)

theorem decFirst_of_first_match (bc : String)
    (pre : List Item) (it : Item) (post : List Item)
    (hpre : ∀ jt ∈ pre, jt.barcode ≠ bc) (hit : it.barcode = bc) :
    decFirst bc (pre ++ it :: post) =
      pre ++ (if it.quantity > 1 then dropOneItem it :: post else post) := by
  induction pre with
  | nil =>
      by_cases hq : it.quantity > 1 <;> simp [decFirst, hit, hq]
  | cons jt rest ih =>
      have h1 : jt.barcode ≠ bc := hpre jt (List.mem_cons_self jt rest)
      simp only [List.cons_append, decFirst, if_neg h1, List.cons.injEq, true_and]
      exact ih fun kt hkt => hpre kt (List.mem_cons_of_mem jt hkt)

/-- The cart total invariant of the spec. -/
def totalInvariant (st : Cart) : Prop :=
  st.total = round2 ((st.items.map Item.total).sum)

theorem applyMutation_totalInvariant (cat : String → Option Product)
    (st : Cart) (m : Mutation) (h : totalInvariant st) :
    totalInvariant (applyMutation cat st m) := by
  cases m with
  | scan id =>
      unfold applyMutation processBarcode
      cases hc : cat id with
      | some p => simp [totalInvariant, cartTotal, hc]
      | none => simpa [totalInvariant, hc] using h
  | increase b => simp [applyMutation, increaseQuantity, totalInvariant, cartTotal]
  | decrease b => simp [applyMutation, decreaseQuantity, totalInvariant, cartTotal]
  | remove b => simp [applyMutation, removeItem, totalInvariant, cartTotal]
  | clear => simp [applyMutation, clearCart, totalInvariant, round2_zero]

theorem foldl_totalInvariant (cat : String → Option Product)
    (ms : List Mutation) (st : Cart) (h : totalInvariant st) :
    totalInvariant (ms.foldl (applyMutation cat) st) := by
  induction ms generalizing st with
  | nil => simpa using h
  | cons m rest ih =>
      simpa using ih (applyMutation cat st m) (applyMutation_totalInvariant cat st m h)

/-- C1: after every sequence of cart mutations (add_scan, increase, decrease,
remove, clear) starting from the empty cart, the cart total equals
round(sum of the line totals of the items currently in the cart, 2). -/
theorem cart_total_invariant (cat : String → Option Product) (ms : List Mutation) :
    (runMutations cat ms).total =
      round2 (((runMutations cat ms).items.map Item.total).sum) := by
  have base : totalInvariant ⟨[], 0⟩ := by
    simp [totalInvariant, round2_zero]
  exact foldl_totalInvariant cat ms ⟨[], 0⟩ base

/-- C3: the debouncer accepts an event iff the identifier differs from the
stored one or the elapsed time strictly exceeds the window; on acceptance the
slot becomes (identifier, observed_at), otherwise it is unchanged; with
window 2.0, a repeat at t = 1.0 after acceptance at t = 0 is rejected and a
repeat at t = 2.1 is accepted. -/
theorem debounce_accept_iff (delay : ℚ) (s : LastScan) (id : String) (t : ℚ) :
    ((debounceStep delay s id t).1 = true ↔
      (id ≠ s.barcode ∨ t - s.time > delay)) ∧
    ((debounceStep delay s id t).2 =
      if id ≠ s.barcode ∨ t - s.time > delay then (⟨id, t⟩ : LastScan) else s) ∧
    (debounceStep 2 ⟨"X", 0⟩ "X" 1).1 = false ∧
    (debounceStep 2 ⟨"X", 0⟩ "X" (21/10)).1 = true := by
  have hcond : (s.barcode ≠ id ∨ t - s.time > delay) ↔
      (id ≠ s.barcode ∨ t - s.time > delay) := by
    constructor <;> (intro h; cases h with
      | inl h1 => exact Or.inl h1.symm
      | inr h2 => exact Or.inr h2)
  refine ⟨?_, ?_, ?_, ?_⟩
  · unfold debounceStep
    by_cases h : id ≠ s.barcode ∨ t - s.time > delay
    · rw [if_pos (hcond.mpr h)]
      simp [h]
    · rw [if_neg (fun hh => h (hcond.mp hh))]
      simp [h]
  · unfold debounceStep
    by_cases h : id ≠ s.barcode ∨ t - s.time > delay
    · rw [if_pos (hcond.mpr h), if_pos h]
    · rw [if_neg (fun hh => h (hcond.mp hh)), if_neg h]
  · norm_num [debounceStep]
  · norm_num [debounceStep]

/-- C6: scanning an identifier absent from the catalog leaves the cart
(items and total) untouched, attempts no persistence write, and reports the
not-found outcome. -/
theorem addScan_unknown_noop (cat : String → Option Product) (st : Cart)
    (id : String) (h : cat id = none) :
    processBarcode cat st id = (st, Outcome.notFound, []) := by
  simp [processBarcode, h]

/-- Witness for C6 at the spec's own example: `add_scan("NOPE")` against an
empty catalog. -/
theorem addScan_unknown_noop_witness :
    processBarcode (fun _ => none) ⟨[], 0⟩ "NOPE" = (⟨[], 0⟩, Outcome.notFound, []) :=
  addScan_unknown_noop (fun _ => none) ⟨[], 0⟩ "NOPE" rfl

/-- C4: for an identifier present in the catalog, `add_scan` bumps the first
existing line item for it (quantity + 1, line total recomputed as
round(quantity * unit_price, 2)), appends a fresh quantity-1 line item when
none exists, and in both cases recomputes the cart total from scratch as the
rounded sum of all line totals. -/
theorem addScan_known (cat : String → Option Product) (st : Cart)
    (id : String) (p : Product) (h : cat id = some p) :
    (processBarcode cat st id).2.1 = Outcome.added ∧
    ((∀ it ∈ st.items, it.barcode ≠ id) →
      (processBarcode cat st id).1.items =
        st.items ++ [⟨p.name, p.price, id, 1, round2 p.price⟩]) ∧
    (∀ pre it post, st.items = pre ++ it :: post → it.barcode = id →
      (∀ jt ∈ pre, jt.barcode ≠ id) →
      (processBarcode cat st id).1.items =
        pre ++ { it with quantity := it.quantity + 1,
                         total := round2 (((it.quantity + 1 : ℕ) : ℚ) * it.price) } :: post) ∧
    (processBarcode cat st id).1.total =
      round2 ((((processBarcode cat st id).1.items).map Item.total).sum) := by
  refine ⟨?_, ?_, ?_, ?_⟩
  · simp [processBarcode, h]
  · intro habs
    simp only [processBarcode, h]
    exact addToItems_of_absent id p st.items habs
  · intro pre it post hsplit hit hpre
    simp only [processBarcode, h]
    rw [hsplit]
    exact addToItems_of_first_match id p pre it post hpre hit
  · simp [processBarcode, h, cartTotal]

/-- Witness for C4: a fresh scan of a known identifier lands as a quantity-1
line item, and a second scan bumps it to quantity 2. -/
theorem addScan_known_witness :
    (processBarcode (fun i => if i = "AB" then some ⟨"Milk", 3⟩ else none)
        ⟨[], 0⟩ "AB").1.items = [⟨"Milk", 3, "AB", 1, round2 3⟩] ∧
    (processBarcode (fun i => if i = "AB" then some ⟨"Milk", 3⟩ else none)
        ⟨[⟨"Milk", 3, "AB", 1, round2 3⟩], round2 3⟩ "AB").1.items =
      [⟨"Milk", 3, "AB", 2, round2 (((2 : ℕ) : ℚ) * 3)⟩] := by
  constructor
  · have h := addScan_known (fun i => if i = "AB" then some ⟨"Milk", 3⟩ else none)
      ⟨[], 0⟩ "AB" ⟨"Milk", 3⟩ (by simp)
    simpa using h.2.1 (by simp)
  · have h := addScan_known (fun i => if i = "AB" then some ⟨"Milk", 3⟩ else none)
      ⟨[⟨"Milk", 3, "AB", 1, round2 3⟩], round2 3⟩ "AB" ⟨"Milk", 3⟩ (by simp)
    simpa using h.2.2.1 [] ⟨"Milk", 3, "AB", 1, round2 3⟩ [] (by simp) (by simp)
      (by simp)

/-- C5: `decrease(identifier)` decrements the first matching line item and
recomputes its line total when its quantity exceeds 1, removes the line item
entirely when its quantity is 1 (so no item with that identifier remains,
given the identifier appears at most once), leaves the item list untouched
when the identifier is absent, and always recomputes the cart total as the
rounded sum of the remaining line totals. -/
theorem decrease_spec (st : Cart) (b bc : String)
    (hb : normalizeBarcode b = bc) :
    ((∀ it ∈ st.items, it.barcode ≠ bc) →
      (decreaseQuantity st b).items = st.items) ∧
    (∀ pre it post, st.items = pre ++ it :: post → it.barcode = bc →
      (∀ jt ∈ pre, jt.barcode ≠ bc) →
      (it.quantity > 1 →
        (decreaseQuantity st b).items =
          pre ++ { it with quantity := it.quantity - 1,
                           total := round2 (((it.quantity - 1 : ℕ) : ℚ) * it.price) } :: post) ∧
      (it.quantity = 1 →
        (decreaseQuantity st b).items = pre ++ post ∧
        ((∀ jt ∈ post, jt.barcode ≠ bc) →
          ∀ jt ∈ (decreaseQuantity st b).items, jt.barcode ≠ bc))) ∧
    (decreaseQuantity st b).total =
      round2 ((((decreaseQuantity st b).items).map Item.total).sum) := by
  refine ⟨?_, ?_, ?_⟩
  · intro habs
    simp only [decreaseQuantity, hb]
    exact decFirst_of_absent bc st.items habs
  · intro pre it post hsplit hit hpre
    have hmain : decFirst bc st.items =
        pre ++ (if it.quantity > 1 then dropOneItem it :: post else post) := by
      rw [hsplit]
      exact decFirst_of_first_match bc pre it post hpre hit
    constructor
    · intro hq
      simp only [decreaseQuantity, hb, hmain, if_pos hq]
      rfl
    · intro hq
      have hq' : ¬ it.quantity > 1 := by omega
      constructor
      · simp only [decreaseQuantity, hb, hmain, if_neg hq']
      · intro hpost jt hjt
        simp only [decreaseQuantity, hb, hmain, if_neg hq'] at hjt
        rcases List.mem_append.mp hjt with hj | hj
        · exact hpre jt hj
        · exact hpost jt hj
  · simp [decreaseQuantity, cartTotal]

/-- Witness for C5 at the spec's quantity-floor example: decreasing a
quantity-1 line item empties the cart of that identifier. -/
theorem decrease_spec_witness :
    (decreaseQuantity ⟨[⟨"Milk", 3, "AB", 1, round2 3⟩], round2 3⟩ "ab").items = [] ∧
    (decreaseQuantity ⟨[⟨"Milk", 3, "AB", 2, round2 6⟩], round2 6⟩ "ab").items =
      [⟨"Milk", 3, "AB", 1, round2 (((1 : ℕ) : ℚ) * 3)⟩] := by
  constructor
  · have h := decrease_spec ⟨[⟨"Milk", 3, "AB", 1, round2 3⟩], round2 3⟩ "ab" "AB"
      (by decide)
    simpa using ((h.2.1 [] ⟨"Milk", 3, "AB", 1, round2 3⟩ [] (by simp) (by simp)
      (by simp)).2 (by simp)).1
  · have h := decrease_spec ⟨[⟨"Milk", 3, "AB", 2, round2 6⟩], round2 6⟩ "ab" "AB"
      (by decide)
    simpa using (h.2.1 [] ⟨"Milk", 3, "AB", 2, round2 6⟩ [] (by simp) (by simp)
      (by simp)).1 (by norm_num)

/-- C7: for a known identifier, the in-memory cart after `process_barcode`
is the same whether the persistence write succeeds or raises: the mutation
is completed before the write is attempted and is never rolled back; a
failed write leaves the database untouched. -/
theorem persist_failure_no_rollback (cat : String → Option Product)
    (st : Cart) (id : String) (p : Product) (db : List Row) (today : ℕ)
    (h : cat id = some p) :
    (processBarcodeLogged cat st id db today false).1 =
      (processBarcode cat st id).1 ∧
    (processBarcodeLogged cat st id db today false).1 =
      (processBarcodeLogged cat st id db today true).1 ∧
    (processBarcodeLogged cat st id db today false).2 = db := by
  simp [processBarcodeLogged, processBarcode, h]

/-- Witness for C7 on a concrete catalog, cart and database. -/
theorem persist_failure_no_rollback_witness :
    (processBarcodeLogged (fun i => if i = "AB" then some ⟨"Milk", 3⟩ else none)
        ⟨[], 0⟩ "AB" [⟨"Jam", 2, "ZZ", 1, 0⟩] 0 false).1 =
      (processBarcode (fun i => if i = "AB" then some ⟨"Milk", 3⟩ else none)
        ⟨[], 0⟩ "AB").1 ∧
    (processBarcodeLogged (fun i => if i = "AB" then some ⟨"Milk", 3⟩ else none)
        ⟨[], 0⟩ "AB" [⟨"Jam", 2, "ZZ", 1, 0⟩] 0 false).2 =
      [⟨"Jam", 2, "ZZ", 1, 0⟩] := by
  have h := persist_failure_no_rollback
    (fun i => if i = "AB" then some ⟨"Milk", 3⟩ else none)
    ⟨[], 0⟩ "AB" ⟨"Milk", 3⟩ [⟨"Jam", 2, "ZZ", 1, 0⟩] 0 (by simp)
  exact ⟨h.1, h.2.2⟩

/-- C9: `save_to_database` increments the quantity of the existing
(barcode, today) row and inserts nothing when such a row exists, inserts a
fresh quantity-1 row for today otherwise, and never modifies a row whose day
is a prior calendar day. -/
theorem saveToDatabase_spec (db : List Row) (today : ℕ) (b nm : String) (pr : ℚ) :
    (db.any (rowMatches b today) = true →
      (saveToDatabase db today b nm pr).length = db.length ∧
      ∀ i (hi : i < db.length) (hl : i < (saveToDatabase db today b nm pr).length),
        (saveToDatabase db today b nm pr).get ⟨i, hl⟩ =
          (if rowMatches b today (db.get ⟨i, hi⟩)
           then { db.get ⟨i, hi⟩ with quantity := (db.get ⟨i, hi⟩).quantity + 1 }
           else db.get ⟨i, hi⟩)) ∧
    (db.any (rowMatches b today) = false →
      saveToDatabase db today b nm pr = db ++ [⟨nm, pr, b, 1, today⟩]) ∧
    (∀ i (hi : i < db.length) (hl : i < (saveToDatabase db today b nm pr).length),
      (db.get ⟨i, hi⟩).day < today →
      (saveToDatabase db today b nm pr).get ⟨i, hl⟩ = db.get ⟨i, hi⟩) := by
  refine ⟨?_, ?_, ?_⟩
  · intro h
    constructor
    · simp [saveToDatabase, h]
    · intro i hi hl
      simp [saveToDatabase, h, List.get_eq_getElem, List.getElem_map]
  · intro h
    simp [saveToDatabase, h]
  · intro i hi hl hday
    have hne : rowMatches b today (db.get ⟨i, hi⟩) = false := by
      simp only [rowMatches, Bool.decide_and, Bool.and_eq_false_iff,
        decide_eq_false_iff_not]
      right
      omega
    simp only [List.get_eq_getElem] at hne
    by_cases h : db.any (rowMatches b today)
    · simp [saveToDatabase, h, List.get_eq_getElem, List.getElem_map, hne]
    · simp only [Bool.not_eq_true] at h
      simp [saveToDatabase, h, List.get_eq_getElem, List.getElem_append_left hi]

/-- Witness for C9: insert on an empty table, then increment on the row it
created, while a prior-day row stays untouched. -/
theorem saveToDatabase_spec_witness :
    saveToDatabase [] 0 "A" "Milk" 3 = [⟨"Milk", 3, "A", 1, 0⟩] ∧
    (saveToDatabase [⟨"Milk", 3, "A", 1, 0⟩, ⟨"Milk", 3, "A", 4, 1⟩] 1 "A" "Milk" 3).length = 2 ∧
    (saveToDatabase [⟨"Milk", 3, "A", 1, 0⟩, ⟨"Milk", 3, "A", 4, 1⟩] 1 "A" "Milk" 3).get
        ⟨0, by decide⟩ = ⟨"Milk", 3, "A", 1, 0⟩ := by
  refine ⟨?_, ?_, ?_⟩
  · exact (saveToDatabase_spec [] 0 "A" "Milk" 3).2.1 (by decide)
  · exact ((saveToDatabase_spec [⟨"Milk", 3, "A", 1, 0⟩, ⟨"Milk", 3, "A", 4, 1⟩]
      1 "A" "Milk" 3).1 (by decide)).1
  · exact (saveToDatabase_spec [⟨"Milk", 3, "A", 1, 0⟩, ⟨"Milk", 3, "A", 4, 1⟩]
      1 "A" "Milk" 3).2.2 0 (by decide) (by decide) (by decide)

/-- C8 counterexample: `load_products_from_json` performs no coercion to a
non-negative value — a source entry with price -5 and multiplier 1 loads as
a catalog entry with a negative unit price. -/
theorem loadProducts_nonneg_cex :
    ∃ e ∈ loadProducts 1 [⟨"A", "Widget", some (-5)⟩], e.2.price < 0 := by
  refine ⟨(normalizeBarcode "A", ⟨"Widget", round2 ((-5) * 1)⟩), ?_, ?_⟩
  · simp [loadProducts, loadEntry]
  · norm_num [round2, round_eq, Int.floor_eq_iff, normalizeBarcode]

/-- C8 amended: catalog load multiplies each parseable price by the
configured multiplier and rounds to 2 decimals (an unparseable price loads
as 0.0); every loaded unit price is non-negative provided the multiplier and
every parseable source price are non-negative. -/
theorem loadProducts_nonneg (mult : ℚ) (entries : List RawEntry)
    (hm : 0 ≤ mult) (he : ∀ e ∈ entries, ∀ p, e.price = some p → 0 ≤ p) :
    ∀ pe ∈ loadProducts mult entries, 0 ≤ pe.2.price := by
  intro pe hpe
  simp only [loadProducts, List.mem_map, List.mem_filter] at hpe
  obtain ⟨e, ⟨hee, -⟩, rfl⟩ := hpe
  cases hp : e.price with
  | none =>
      simp only [loadEntry, hp]
      exact round2_nonneg le_rfl
  | some p =>
      simp only [loadEntry, hp]
      exact round2_nonneg (mul_nonneg (he e hee p hp) hm)

/-- Witness for C8's amended statement on a concrete catalog source. -/
theorem loadProducts_nonneg_witness :
    (0 : ℚ) ≤ 2 ∧
    ∀ pe ∈ loadProducts 2 [⟨"a", "Milk", some 3⟩, ⟨"b", "Jam", none⟩],
      0 ≤ pe.2.price := by
  refine ⟨by norm_num, loadProducts_nonneg 2 _ (by norm_num) ?_⟩
  intro e hee p hp
  simp only [List.mem_cons, List.not_mem_nil, or_false] at hee
  rcases hee with rfl | rfl
  · simp only [Option.some.injEq] at hp
    subst hp
    norm_num
  · simp at hp

/-- C10: the remove, increase and decrease commands normalize their barcode
argument by stripping whitespace and uppercasing, so any casing or
surrounding-whitespace variant of an identifier acts on the cart exactly as
the normalized identifier does. -/
theorem commands_normalize (st : Cart) (b id : String)
    (hb : normalizeBarcode b = id) (hid : normalizeBarcode id = id) :
    removeItem st b = removeItem st id ∧
    increaseQuantity st b = increaseQuantity st id ∧
    decreaseQuantity st b = decreaseQuantity st id := by
  refine ⟨?_, ?_, ?_⟩ <;>
    simp [removeItem, increaseQuantity, decreaseQuantity, hb, hid]

/-- Witness for C10: `" ab "` acts exactly as `"AB"` on a concrete cart. -/
theorem commands_normalize_witness :
    removeItem ⟨[⟨"Milk", 3, "AB", 2, round2 6⟩], round2 6⟩ " ab " =
      removeItem ⟨[⟨"Milk", 3, "AB", 2, round2 6⟩], round2 6⟩ "AB" ∧
    increaseQuantity ⟨[⟨"Milk", 3, "AB", 2, round2 6⟩], round2 6⟩ " ab " =
      increaseQuantity ⟨[⟨"Milk", 3, "AB", 2, round2 6⟩], round2 6⟩ "AB" ∧
    decreaseQuantity ⟨[⟨"Milk", 3, "AB", 2, round2 6⟩], round2 6⟩ " ab " =
      decreaseQuantity ⟨[⟨"Milk", 3, "AB", 2, round2 6⟩], round2 6⟩ "AB" :=
  commands_normalize ⟨[⟨"Milk", 3, "AB", 2, round2 6⟩], round2 6⟩ " ab " "AB"
    (by decide) (by decide)

/-- Witness for C1 on a concrete mutation sequence: scan twice, adjust,
remove, scan again. -/
theorem cart_total_invariant_witness :
    (runMutations (fun i => if i = "AB" then some ⟨"Milk", 3⟩ else none)
        [Mutation.scan "AB", Mutation.scan "AB", Mutation.decrease "ab",
         Mutation.remove "zz", Mutation.scan "NOPE"]).total =
      round2 (((runMutations (fun i => if i = "AB" then some ⟨"Milk", 3⟩ else none)
        [Mutation.scan "AB", Mutation.scan "AB", Mutation.decrease "ab",
         Mutation.remove "zz", Mutation.scan "NOPE"]).items.map Item.total).sum) :=
  cart_total_invariant (fun i => if i = "AB" then some ⟨"Milk", 3⟩ else none)
    [Mutation.scan "AB", Mutation.scan "AB", Mutation.decrease "ab",
     Mutation.remove "zz", Mutation.scan "NOPE"]

/-- Witness for C3 at the spec's own window example (window 2.0, repeat at
t = 1.0 after acceptance at t = 0). -/
theorem debounce_accept_iff_witness :
    ((debounceStep 2 ⟨"X", 0⟩ "X" 1).1 = true ↔
      ("X" ≠ LastScan.barcode ⟨"X", 0⟩ ∨ 1 - LastScan.time ⟨"X", 0⟩ > 2)) ∧
    ((debounceStep 2 ⟨"X", 0⟩ "X" 1).2 =
      if "X" ≠ LastScan.barcode ⟨"X", 0⟩ ∨ 1 - LastScan.time ⟨"X", 0⟩ > 2
      then (⟨"X", 1⟩ : LastScan) else ⟨"X", 0⟩) ∧
    (debounceStep 2 ⟨"X", 0⟩ "X" 1).1 = false ∧
    (debounceStep 2 ⟨"X", 0⟩ "X" (21/10)).1 = true :=
  debounce_accept_iff 2 ⟨"X", 0⟩ "X" 1
